import Mathlib

/-!
Verification of the study-tracker record store (`src/app.py`).

The program keeps a two-column table of study records (a calendar date and
an hours value) in a Google-Sheets worksheet when a connection exists, with
a session-scoped in-memory DataFrame as fallback.  We embed the store
operations (`get_study_data`, `add_study_session`, `delete_study_session`),
the sidebar input gate, the worksheet probe order, the statistics block and
the 7-day rolling average as Lean functions and prove the specification's
claims about them.

Dates are modelled as a calendar day ordinal together with a time-of-day
component (`pd.Timestamp` values); matching in the code is on the formatted
`%Y-%m-%d` string, hence on the day alone, while sorting (`sort_values`)
compares the full timestamp.  Hours are rationals.  Backend exceptions are
modelled by explicit failure flags: an operation that Python would abort
with a caught exception is the corresponding `false` flag branch.
-/

/-- A `pd.Timestamp`: calendar day ordinal plus a time-of-day component. -/
structure Dt where
  day : Nat
  tod : Nat
deriving DecidableEq, Repr

/-- One row of the study table: a timestamp and an hours value
(`date`, `hours` columns in `app.py`). -/
structure StudyRecord where
  date : Dt
  hours : ℚ
deriving DecidableEq, Repr

/-- Comparison used by `df.sort_values('date')`: full timestamp order
(day, then time of day). -/
def dtLE (a b : StudyRecord) : Prop :=
  a.date.day < b.date.day ∨ (a.date.day = b.date.day ∧ a.date.tod ≤ b.date.tod)

instance : DecidableRel dtLE := fun a b => by
  unfold dtLE; infer_instance

instance : IsTotal StudyRecord dtLE where
  total a b := by unfold dtLE; omega

instance : IsTrans StudyRecord dtLE where
  trans a b c := by unfold dtLE; omega

/-- The sort `df = df.sort_values('date')` (lines 122, 175, 70). -/
def sortByDate (l : List StudyRecord) : List StudyRecord :=
  List.insertionSort dtLE l

/-- The in-store upsert of `add_study_session` (lines 100-122 and 152-175):
look for a row whose `%Y-%m-%d` string equals the target's (day equality,
time of day ignored); if found replace the hours of every matching row
(`df.loc[...] = hours`) and tag "updated", otherwise append a fresh row and
tag "added"; finally re-sort by date. -/
def upsertCore (l : List StudyRecord) (d : Dt) (h : ℚ) : String × List StudyRecord :=
  if l.any (fun r => r.date.day == d.day) then
    ("updated", sortByDate (l.map (fun r => if r.date.day == d.day then ⟨r.date, h⟩ else r)))
  else
    ("added", sortByDate (l ++ [⟨d, h⟩]))

/-- The in-store delete of `delete_study_session` (lines 205-206, 237-238):
keep exactly the rows whose `%Y-%m-%d` string differs from the target's. -/
def deleteCore (l : List StudyRecord) (dd : Nat) : List StudyRecord :=
  l.filter (fun r => r.date.day != dd)

/-- The two backends: `remote = some rdata` when `init_connection()` returned
a live Google-Sheets connection holding rows `rdata`, `none` when it returned
`None`; `session` is `st.session_state.study_data`. -/
structure Sys where
  remote : Option (List StudyRecord)
  session : List StudyRecord
deriving DecidableEq, Repr

/-- Exception switches: `remoteReadOk = false` means every `conn.read` raises,
`remoteWriteOk = false` means every `conn.update` raises (for every probed
worksheet identifier), `sessionOk = false` means the session-state fallback
block raises before its single mutating assignment lands. -/
structure Flags where
  remoteReadOk : Bool
  remoteWriteOk : Bool
  sessionOk : Bool
deriving DecidableEq, Repr

/-- The function `get_study_data` (lines 33-81) restricted to already-parsed rows: with a
connection it reads the remote rows (already cleaned and sorted by the read
path, see `cleanSheet` below); any read exception is caught and the function
falls back to a copy of the session state, as it also does without a
connection.  It never raises. -/
def get_study_data (s : Sys) (f : Flags) : List StudyRecord :=
  match s.remote with
  | none => s.session
  | some rdata => if f.remoteReadOk then rdata else s.session

/-- The session-state fallback of `add_study_session` (lines 152-178): upsert
into a copy of `st.session_state.study_data` and store it back; an exception
there is caught by the outer handler (line 180) which returns "error" with
the assignment never performed. -/
def sessionUpsert (s : Sys) (f : Flags) (d : Dt) (h : ℚ) : String × Sys :=
  if f.sessionOk then
    ((upsertCore s.session d h).1, { s with session := (upsertCore s.session d h).2 })
  else
    ("error", s)

/-- The function `add_study_session` (lines 83-182): with a connection, read via
`get_study_data(force_refresh=True)`, upsert, and write the whole table back
through the worksheet probe loop; if every probed write raises, line 141
raises, the handler at line 148 catches it, and the session fallback runs.
Without a connection the fallback runs directly. -/
def add_study_session (s : Sys) (f : Flags) (d : Dt) (h : ℚ) : String × Sys :=
  match s.remote with
  | some _ =>
    let df := get_study_data s f
    if f.remoteWriteOk then
      ((upsertCore df d h).1, { s with remote := some (upsertCore df d h).2 })
    else
      sessionUpsert s f d h
  | none => sessionUpsert s f d h

/-- The function `delete_study_session` (lines 184-245): with a connection, read, filter
out the target date, and — only when the read result was non-empty — attempt
the worksheet writes; every write exception is swallowed by the bare loop
(lines 218-223) and the function returns `True` regardless.  Without a
connection the session fallback filters and stores (returning `False` only
if that block raises); an empty session is returned untouched. -/
def delete_study_session (s : Sys) (f : Flags) (dd : Nat) : Bool × Sys :=
  match s.remote with
  | some _ =>
    let df := get_study_data s f
    if df.isEmpty then
      (true, s)
    else if f.remoteWriteOk then
      (true, { s with remote := some (deleteCore df dd) })
    else
      (true, s)
  | none =>
    if s.session.isEmpty then
      (true, s)
    else if f.sessionOk then
      (true, { s with session := deleteCore s.session dd })
    else
      (false, s)

/-- Outcome of pressing "Save Study Session" in the sidebar. -/
inductive SaveOutcome where
  /-- The store call `add_study_session` was made and returned this tag. -/
  | saved (tag : String)
  /-- The `hours_studied > 0` check failed: error banner, no store call. -/
  | rejectedHours
  /-- The input widgets (`number_input` with `min_value=0.0, max_value=24.0`,
  `date_input` with `max_value=date.today()`) do not produce such a value:
  no store call can be made with it. -/
  | widgetBlocked
deriving DecidableEq, Repr

def SaveOutcome.isSaved : SaveOutcome → Bool
  | saved _ => true
  | _ => false

/-- The sidebar save pipeline (lines 268-299): the widgets bound the inputs to
`0 ≤ hours ≤ 24` and `date ≤ today`, and the button handler only calls
`add_study_session` when `hours_studied > 0`. -/
def sidebarSave (today : Nat) (s : Sys) (f : Flags) (d : Dt) (h : ℚ) :
    SaveOutcome × Sys :=
  if h < 0 ∨ 24 < h ∨ today < d.day then
    (SaveOutcome.widgetBlocked, s)
  else if 0 < h then
    let r := add_study_session s f d h
    (SaveOutcome.saved r.1, r.2)
  else
    (SaveOutcome.rejectedHours, s)

/-- A worksheet identifier as passed to `conn.read` / `conn.update`: either a
sheet name or a numeric index. -/
inductive SheetId where
  | name (s : String)
  | idx (n : Nat)
deriving DecidableEq, Repr

/-- The probe list `sheet_names = ["sheet1", "Sheet1", "Sheet 1", 0]`, built
afresh inside every read (line 44) and every write (lines 129, 217): nothing
stores which identifier last succeeded. -/
def sheet_names : List SheetId :=
  [SheetId.name "sheet1", SheetId.name "Sheet1", SheetId.name "Sheet 1", SheetId.idx 0]

/-- One pass of the probe loop: try each identifier in `sheet_names` order,
swallowing exceptions, and stop at the first that responds (`ok`). -/
def probeSheets (ok : SheetId → Bool) : Option SheetId :=
  sheet_names.find? ok

/-- Lowercase model of Python `str.lower()`: lowercase every character (model of
`df['date'].astype(str).str.lower()` at line 65). -/
def lowerStr (s : String) : String :=
  String.mk (s.data.map Char.toLower)

/-- One raw worksheet row as `conn.read(usecols=[0,1])` sees it: the text of
the date cell, the hours cell after `pd.to_numeric(errors='coerce')` (`none`
when not numeric, dropped by `dropna`), and the timestamp
`pd.to_datetime(dateCell)` would produce for it. -/
structure RawRow where
  dateCell : String
  hoursNum : Option ℚ
  dateVal : Dt
deriving DecidableEq, Repr

/-- The cleaning pipeline of `get_study_data` (lines 57-70): drop any row
whose date cell lowercases to "date" (a residual header row), drop rows whose
hours cell is not numeric, parse, and sort ascending by date. -/
def cleanSheet (rows : List RawRow) : List StudyRecord :=
  sortByDate
    (((rows.filter (fun r => lowerStr r.dateCell != "date")).filter
        (fun r => r.hoursNum.isSome)).map
      (fun r => ⟨r.dateVal, r.hoursNum.getD 0⟩))

/-- The read path `get_study_data` with the raw-sheet cleaning: with a connection and a
successful read it returns the cleaned remote rows; a failed read (or no
connection) falls back to the session copy.  Total: no input makes it
raise. -/
def get_study_data_raw (remote : Option (List RawRow)) (session : List StudyRecord)
    (readOk : Bool) : List StudyRecord :=
  match remote with
  | none => session
  | some rows => if readOk then cleanSheet rows else session

/-- The metrics of the statistics block (lines 326-329). -/
structure Summary where
  total_hours : ℚ
  avg_hours : ℚ
  total_days : Nat
  max_hours : ℚ
deriving DecidableEq, Repr

/-- Maximum of the hours column, `df['hours'].max()`, on a non-empty column (the empty case is unreachable
in the code; 0 here is an arbitrary default). -/
def listMax : List ℚ → ℚ
  | [] => 0
  | x :: xs => xs.foldl max x

/-- The statistics block (lines 322-335): guarded by `if not df.empty`, so on
an empty table no metrics are computed (`none`, the info-message branch at
line 343); otherwise sum / mean / count / max of the hours column. -/
def summaryStats (hours : List ℚ) : Option Summary :=
  if hours.isEmpty then none
  else some ⟨hours.sum, hours.sum / hours.length, hours.length, listMax hours⟩

/-- Value of `hours.rolling(window=w, min_periods=1).mean()` at position `i`: the mean
of the up-to-`w` entries ending at `i` (by position). -/
def windowMean (w : Nat) (hours : List ℚ) (i : Nat) : ℚ :=
  let seg := (hours.take (i + 1)).drop (i + 1 - w)
  seg.sum / seg.length

/-- The rolling-average column (line 388): `rolling(window=w, min_periods=1)`
over the hours in ascending date order, purely by position — calendar gaps
between consecutive records are not interpolated or zero-filled. -/
def rollingAvg (w : Nat) (hours : List ℚ) : List ℚ :=
  (List.range hours.length).map (windowMean w hours)

/-- Display condition of the weekly-average chart (line 383): shown only when
the record count exceeds 7. -/
def showWeeklyChart (df : List StudyRecord) : Bool :=
  7 < df.length

/-- Ten records on ten consecutive days with hours 1..10. -/
def demoRecords : List StudyRecord :=
  [⟨⟨1, 0⟩, 1⟩, ⟨⟨2, 0⟩, 2⟩, ⟨⟨3, 0⟩, 3⟩, ⟨⟨4, 0⟩, 4⟩, ⟨⟨5, 0⟩, 5⟩,
   ⟨⟨6, 0⟩, 6⟩, ⟨⟨7, 0⟩, 7⟩, ⟨⟨8, 0⟩, 8⟩, ⟨⟨9, 0⟩, 9⟩, ⟨⟨10, 0⟩, 10⟩]

theorem sortByDate_perm (l : List StudyRecord) : List.Perm (sortByDate l) l :=
  List.perm_insertionSort dtLE l

theorem sortByDate_sorted (l : List StudyRecord) : List.Sorted dtLE (sortByDate l) :=
  List.sorted_insertionSort dtLE l

theorem mem_sortByDate {a : StudyRecord} {l : List StudyRecord} :
    a ∈ sortByDate l ↔ a ∈ l :=
  (sortByDate_perm l).mem_iff

theorem countP_sortByDate (p : StudyRecord → Bool) (l : List StudyRecord) :
    (sortByDate l).countP p = l.countP p :=
  (sortByDate_perm l).countP_eq p

theorem length_sortByDate (l : List StudyRecord) :
    (sortByDate l).length = l.length :=
  (sortByDate_perm l).length_eq

example : upsertCore [] ⟨1, 0⟩ 2 = ("added", [⟨⟨1, 0⟩, 2⟩]) := by decide
example : upsertCore [⟨⟨1, 0⟩, 2⟩] ⟨1, 5⟩ 3 = ("updated", [⟨⟨1, 0⟩, 3⟩]) := by decide
example : deleteCore [⟨⟨1, 0⟩, 2⟩, ⟨⟨2, 0⟩, 1⟩] 1 = [⟨⟨2, 0⟩, 1⟩] := by decide

theorem upsert_date_preserved (d : Dt) (h : ℚ) (r : StudyRecord) :
    (if r.date.day == d.day then (⟨r.date, h⟩ : StudyRecord) else r).date = r.date := by
  by_cases hc : r.date.day == d.day <;> simp [hc]

/-- C1: an upsert over the current record set matches on the calendar day
alone (any time-of-day component is ignored), replaces the matching record's
hours and tags "updated" when a match exists, appends a new record and tags
"added" otherwise; upserting the same date twice starting from a set without
that date leaves exactly one record with that day, with tags "added" then
"updated". -/
theorem upsert_by_date_spec (l : List StudyRecord) (d : Dt) (h h2 : ℚ) :
    ((∃ r ∈ l, r.date.day = d.day) →
      (upsertCore l d h).1 = "updated" ∧
      ∀ r ∈ (upsertCore l d h).2, r.date.day = d.day → r.hours = h) ∧
    ((∀ r ∈ l, r.date.day ≠ d.day) →
      (upsertCore l d h).1 = "added" ∧
      (⟨d, h⟩ : StudyRecord) ∈ (upsertCore l d h).2 ∧
      (upsertCore l d h).2.length = l.length + 1 ∧
      (upsertCore (upsertCore l d h).2 d h2).1 = "updated" ∧
      ((upsertCore (upsertCore l d h).2 d h2).2).countP
        (fun r => r.date.day == d.day) = 1) := by
  constructor
  · intro hex
    have hany : l.any (fun r => r.date.day == d.day) = true := by
      rw [List.any_eq_true]
      obtain ⟨r, hr, hd⟩ := hex
      exact ⟨r, hr, by simp [hd]⟩
    constructor
    · simp [upsertCore, hany]
    · intro r hr hday
      simp only [upsertCore, hany, if_true] at hr
      rw [mem_sortByDate, List.mem_map] at hr
      obtain ⟨x, _, hx⟩ := hr
      by_cases hc : x.date.day == d.day
      · simp [hc] at hx; rw [← hx]
      · simp [hc] at hx
        subst hx
        simp at hc
        exact absurd hday hc
  · intro hnone
    have hany : l.any (fun r => r.date.day == d.day) = false := by
      rw [List.any_eq_false]
      intro r hr
      simp [hnone r hr]
    have h0 : upsertCore l d h = ("added", sortByDate (l ++ [⟨d, h⟩])) := by
      simp [upsertCore, hany]
    have hmem : (⟨d, h⟩ : StudyRecord) ∈ sortByDate (l ++ [⟨d, h⟩]) := by
      rw [mem_sortByDate]
      simp
    have hany2 : (sortByDate (l ++ [⟨d, h⟩])).any (fun r => r.date.day == d.day) = true := by
      rw [List.any_eq_true]
      exact ⟨⟨d, h⟩, hmem, by simp⟩
    refine ⟨by rw [h0], by rw [h0]; exact hmem, ?_, ?_, ?_⟩
    · rw [h0]
      simp [length_sortByDate]
    · rw [h0]
      simp [upsertCore, hany2]
    · rw [h0]
      simp only [upsertCore, hany2, if_true]
      rw [countP_sortByDate, List.countP_map, countP_sortByDate, List.countP_append]
      have hcongr :
          l.countP (fun a =>
            (if a.date.day == d.day then (⟨a.date, h2⟩ : StudyRecord) else a).date.day ==
              d.day) = l.countP (fun a => a.date.day == d.day) := by
        apply List.countP_congr
        intro a _
        rw [upsert_date_preserved d h2 a]
      simp only [Function.comp_def]
      rw [hcongr]
      have hz : l.countP (fun a => a.date.day == d.day) = 0 :=
        List.countP_eq_zero.mpr (fun a ha => by simp [hnone a ha])
      rw [hz]
      simp

/-- Witness for `upsert_by_date_spec`: a record at day 1 with a nonzero time
of day is still matched by an upsert at day 1 midnight ("updated"); on an
empty store the first upsert of day 2 tags "added" and the second "updated". -/
theorem upsert_by_date_spec_witness :
    (upsertCore [⟨⟨1, 3⟩, 2⟩] ⟨1, 0⟩ 5).1 = "updated" ∧
    (upsertCore [] ⟨2, 0⟩ 4).1 = "added" ∧
    (upsertCore (upsertCore [] ⟨2, 0⟩ 4).2 ⟨2, 0⟩ 6).1 = "updated" :=
  ⟨((upsert_by_date_spec [⟨⟨1, 3⟩, 2⟩] ⟨1, 0⟩ 5 5).1 ⟨⟨⟨1, 3⟩, 2⟩, by decide, rfl⟩).1,
   ((upsert_by_date_spec [] ⟨2, 0⟩ 4 6).2 (by decide)).1,
   ((upsert_by_date_spec [] ⟨2, 0⟩ 4 6).2 (by decide)).2.2.2.1⟩

/-- C2: a save request with hours ≤ 0, hours > 24 or a future date never
reaches `add_study_session` (the widgets bound the ranges and the button
handler rejects non-positive hours with an error banner), so no backend is
touched and the state is unchanged. -/
theorem invalid_input_rejected (today : Nat) (s : Sys) (f : Flags) (d : Dt) (h : ℚ)
    (hinv : h ≤ 0 ∨ 24 < h ∨ today < d.day) :
    (sidebarSave today s f d h).1.isSaved = false ∧
    (sidebarSave today s f d h).2 = s := by
  unfold sidebarSave
  split_ifs with hw hp
  · exact ⟨rfl, rfl⟩
  · exfalso
    rcases hinv with h1 | h2 | h3
    · push_neg at hw
      linarith
    · exact hw (Or.inr (Or.inl h2))
    · exact hw (Or.inr (Or.inr h3))
  · exact ⟨rfl, rfl⟩

/-- Witness for `invalid_input_rejected`: on day 10, saving 25 hours for
day 9, or 1 hour for the future day 11, or 0 hours for day 9, all leave the
store untouched. -/
theorem invalid_input_rejected_witness :
    ((sidebarSave 10 ⟨none, []⟩ ⟨true, true, true⟩ ⟨9, 0⟩ 25).1.isSaved = false ∧
      (sidebarSave 10 ⟨none, []⟩ ⟨true, true, true⟩ ⟨9, 0⟩ 25).2 = ⟨none, []⟩) ∧
    ((sidebarSave 10 ⟨none, []⟩ ⟨true, true, true⟩ ⟨11, 0⟩ 1).1.isSaved = false ∧
      (sidebarSave 10 ⟨none, []⟩ ⟨true, true, true⟩ ⟨11, 0⟩ 1).2 = ⟨none, []⟩) ∧
    ((sidebarSave 10 ⟨none, []⟩ ⟨true, true, true⟩ ⟨9, 0⟩ 0).1.isSaved = false ∧
      (sidebarSave 10 ⟨none, []⟩ ⟨true, true, true⟩ ⟨9, 0⟩ 0).2 = ⟨none, []⟩) :=
  ⟨invalid_input_rejected 10 ⟨none, []⟩ ⟨true, true, true⟩ ⟨9, 0⟩ 25
      (Or.inr (Or.inl (by norm_num))),
   invalid_input_rejected 10 ⟨none, []⟩ ⟨true, true, true⟩ ⟨11, 0⟩ 1
      (Or.inr (Or.inr (by norm_num))),
   invalid_input_rejected 10 ⟨none, []⟩ ⟨true, true, true⟩ ⟨9, 0⟩ 0
      (Or.inl (by norm_num))⟩

/-- C3: upsert preserves the store invariant — starting from a set with no
two records on the same calendar day, the materialized result is sorted
ascending by date and still has at most one record per day. -/
theorem upsert_invariant (l : List StudyRecord) (d : Dt) (h : ℚ)
    (hnd : (l.map (fun r => r.date.day)).Nodup) :
    List.Pairwise (fun a b => a.date.day ≤ b.date.day) (upsertCore l d h).2 ∧
    ((upsertCore l d h).2.map (fun r => r.date.day)).Nodup := by
  have hsorted : ∀ m : List StudyRecord,
      List.Pairwise (fun a b => a.date.day ≤ b.date.day) (sortByDate m) := by
    intro m
    refine (sortByDate_sorted m).imp ?_
    intro a b hab
    unfold dtLE at hab
    omega
  have hperm : ∀ m : List StudyRecord,
      ((sortByDate m).map (fun r => r.date.day)).Nodup ↔
        (m.map (fun r => r.date.day)).Nodup :=
    fun m => ((sortByDate_perm m).map (fun r => r.date.day)).nodup_iff
  unfold upsertCore
  by_cases hany : l.any (fun r => r.date.day == d.day)
  · simp only [hany, if_true]
    refine ⟨hsorted _, (hperm _).mpr ?_⟩
    rw [List.map_map]
    have : ((fun r : StudyRecord => r.date.day) ∘
        fun r => if r.date.day == d.day then (⟨r.date, h⟩ : StudyRecord) else r) =
        fun r : StudyRecord => r.date.day := by
      funext a
      simp only [Function.comp_apply]
      rw [upsert_date_preserved d h a]
    rw [this]
    exact hnd
  · simp only [hany, if_false, Bool.false_eq_true]
    refine ⟨hsorted _, (hperm _).mpr ?_⟩
    rw [List.map_append]
    rw [List.nodup_append]
    refine ⟨hnd, List.nodup_singleton _, ?_⟩
    intro a ha hb
    simp only [List.map_cons, List.map_nil, List.mem_singleton] at hb
    subst hb
    rw [List.mem_map] at ha
    obtain ⟨r, hr, hd⟩ := ha
    rw [Bool.not_eq_true, List.any_eq_false] at hany
    have := hany r hr
    simp [hd] at this

/-- Witness for `upsert_invariant`: upserting day 1 into a two-day store
keeps it sorted with distinct days. -/
theorem upsert_invariant_witness :
    List.Pairwise (fun a b => a.date.day ≤ b.date.day)
      (upsertCore [⟨⟨2, 0⟩, 3⟩, ⟨⟨1, 0⟩, 2⟩] ⟨1, 0⟩ 5).2 ∧
    ((upsertCore [⟨⟨2, 0⟩, 3⟩, ⟨⟨1, 0⟩, 2⟩] ⟨1, 0⟩ 5).2.map
      (fun r => r.date.day)).Nodup :=
  upsert_invariant [⟨⟨2, 0⟩, 3⟩, ⟨⟨1, 0⟩, 2⟩] ⟨1, 0⟩ 5 (by decide)

theorem deleteCore_of_absent {l : List StudyRecord} {dd : Nat}
    (h : ∀ r ∈ l, r.date.day ≠ dd) : deleteCore l dd = l := by
  unfold deleteCore
  rw [List.filter_eq_self]
  intro r hr
  simp [h r hr]

/-- C4: with the active backend healthy, delete removes every record with the
matching calendar day and writes the remaining set back (the empty set is
written as an explicit header-only table when nothing remains), returning
`True`; deleting an absent day leaves the record set unchanged and still
returns `True`. -/
theorem delete_spec (s : Sys) (f : Flags) (dd : Nat) (rdata : List StudyRecord)
    (hok : f.remoteReadOk = true ∧ f.remoteWriteOk = true ∧ f.sessionOk = true) :
    (s.remote = some rdata →
      delete_study_session s f dd =
        (true, { s with remote := some (deleteCore rdata dd) }) ∧
      (∀ r ∈ deleteCore rdata dd, r.date.day ≠ dd) ∧
      ((∀ r ∈ rdata, r.date.day ≠ dd) → delete_study_session s f dd = (true, s))) ∧
    (s.remote = none →
      delete_study_session s f dd =
        (true, { s with session := deleteCore s.session dd }) ∧
      ((∀ r ∈ s.session, r.date.day ≠ dd) → delete_study_session s f dd = (true, s))) := by
  obtain ⟨h1, h2, h3⟩ := hok
  obtain ⟨rem, sess⟩ := s
  constructor
  · intro hrem
    simp only at hrem
    subst hrem
    have hbase : delete_study_session ⟨some rdata, sess⟩ f dd =
        (true, ⟨some (deleteCore rdata dd), sess⟩) := by
      unfold delete_study_session get_study_data
      simp only [h1, h2, if_true]
      by_cases he : rdata.isEmpty
      · rw [List.isEmpty_iff] at he
        subst he
        simp [deleteCore]
      · simp [he]
    refine ⟨hbase, ?_, ?_⟩
    · intro r hr
      unfold deleteCore at hr
      rw [List.mem_filter] at hr
      simpa using hr.2
    · intro habs
      rw [hbase, deleteCore_of_absent habs]
  · intro hrem
    simp only at hrem
    subst hrem
    have hbase : delete_study_session ⟨none, sess⟩ f dd =
        (true, ⟨none, deleteCore sess dd⟩) := by
      unfold delete_study_session
      simp only [h3, if_true]
      by_cases he : sess.isEmpty
      · rw [List.isEmpty_iff] at he
        subst he
        simp [deleteCore]
      · simp [he]
    refine ⟨hbase, ?_⟩
    intro habs
    rw [hbase, deleteCore_of_absent habs]

/-- Witness for `delete_spec`: deleting day 1 from a one-record remote store
empties it; deleting the absent day 7 leaves it unchanged and still
succeeds. -/
theorem delete_spec_witness :
    delete_study_session ⟨some [⟨⟨1, 0⟩, 2⟩], []⟩ ⟨true, true, true⟩ 1 =
      (true, ⟨some [], []⟩) ∧
    delete_study_session ⟨some [⟨⟨1, 0⟩, 2⟩], []⟩ ⟨true, true, true⟩ 7 =
      (true, ⟨some [⟨⟨1, 0⟩, 2⟩], []⟩) :=
  ⟨((delete_spec ⟨some [⟨⟨1, 0⟩, 2⟩], []⟩ ⟨true, true, true⟩ 1 [⟨⟨1, 0⟩, 2⟩]
      ⟨rfl, rfl, rfl⟩).1 rfl).1,
   ((delete_spec ⟨some [⟨⟨1, 0⟩, 2⟩], []⟩ ⟨true, true, true⟩ 7 [⟨⟨1, 0⟩, 2⟩]
      ⟨rfl, rfl, rfl⟩).1 rfl).2.2 (by decide)⟩

theorem upsertCore_tag (l : List StudyRecord) (d : Dt) (h : ℚ) :
    (upsertCore l d h).1 = "added" ∨ (upsertCore l d h).1 = "updated" := by
  unfold upsertCore
  by_cases hany : l.any (fun r => r.date.day == d.day) <;> simp [hany]

/-- Counterexample to C5: with a live connection whose record for day 1 is
also mirrored in the session state, a delete of day 1 in which every remote
worksheet write raises returns `True` — yet neither the remote table nor the
session fallback loses the record (the whole state is unchanged, although the
deletion should have produced the empty set), so the change was applied to no
backend while success was reported. -/
theorem fallback_claim_counterexample :
    (delete_study_session ⟨some [⟨⟨1, 0⟩, 2⟩], [⟨⟨1, 0⟩, 2⟩]⟩ ⟨true, false, true⟩ 1).1
      = true ∧
    (delete_study_session ⟨some [⟨⟨1, 0⟩, 2⟩], [⟨⟨1, 0⟩, 2⟩]⟩ ⟨true, false, true⟩ 1).2
      = ⟨some [⟨⟨1, 0⟩, 2⟩], [⟨⟨1, 0⟩, 2⟩]⟩ ∧
    deleteCore [⟨⟨1, 0⟩, 2⟩] 1 = [] := by
  refine ⟨rfl, rfl, by decide⟩

/-- C5 as amended: for an upsert, a remote write failure routes the change to
the session fallback and the caller still sees "added"/"updated", and only
when the fallback also fails does the upsert report "error", in which case
nothing changes anywhere; for a delete, however, remote write failures are
swallowed — the delete reports `True` while applying the change to no backend
— and the delete fallback is reached only without a connection, reporting
`False` (with no state change) when it fails on a non-empty session. -/
theorem fallback_chain_amended (s : Sys) (f : Flags) (d : Dt) (h : ℚ) (dd : Nat)
    (rdata : List StudyRecord) :
    (s.remote = some rdata → f.remoteWriteOk = false → f.sessionOk = true →
      add_study_session s f d h =
        ((upsertCore s.session d h).1,
          { s with session := (upsertCore s.session d h).2 }) ∧
      (add_study_session s f d h).1 ≠ "error") ∧
    (f.sessionOk = false → (s.remote = none ∨ f.remoteWriteOk = false) →
      add_study_session s f d h = ("error", s)) ∧
    (s.remote = some rdata → f.remoteWriteOk = false →
      delete_study_session s f dd = (true, s)) ∧
    (s.remote = none → f.sessionOk = false → s.session ≠ [] →
      delete_study_session s f dd = (false, s)) := by
  refine ⟨?_, ?_, ?_, ?_⟩
  · intro h1 h2 h3
    have hbase : add_study_session s f d h =
        ((upsertCore s.session d h).1,
          { s with session := (upsertCore s.session d h).2 }) := by
      unfold add_study_session sessionUpsert
      rw [h1]
      simp [h2, h3]
    refine ⟨hbase, ?_⟩
    rw [hbase]
    rcases upsertCore_tag s.session d h with ht | ht <;> simp [ht]
  · intro h3 h1
    unfold add_study_session sessionUpsert
    rcases h1 with h1 | h1
    · rw [h1]
      simp [h3]
    · cases hrem : s.remote with
      | none => simp [h3]
      | some rd => simp [h1, h3]
  · intro h1 h2
    unfold delete_study_session
    rw [h1]
    simp only [h2, Bool.false_eq_true, if_false]
    split
    · rfl
    · rfl
  · intro h1 h3 hne
    unfold delete_study_session
    rw [h1]
    have : s.session.isEmpty = false := by
      cases hs : s.session with
      | nil => exact absurd hs hne
      | cons a t => rfl
    simp [this, h3]

/-- Witness for `fallback_chain_amended`: with a remote store holding day 1
and all remote writes failing, an upsert of day 2 lands in the (empty)
session state and reports "added"; with the session also failing it reports
"error" and changes nothing; a delete of day 1 reports `True` yet changes
nothing; and without a connection a failing session delete reports
`False`. -/
theorem fallback_chain_amended_witness :
    (add_study_session ⟨some [⟨⟨1, 0⟩, 2⟩], []⟩ ⟨true, false, true⟩ ⟨2, 0⟩ 3 =
        ((upsertCore [] ⟨2, 0⟩ 3).1,
          ⟨some [⟨⟨1, 0⟩, 2⟩], (upsertCore [] ⟨2, 0⟩ 3).2⟩) ∧
      (add_study_session ⟨some [⟨⟨1, 0⟩, 2⟩], []⟩ ⟨true, false, true⟩ ⟨2, 0⟩ 3).1 ≠
        "error") ∧
    add_study_session ⟨some [⟨⟨1, 0⟩, 2⟩], []⟩ ⟨true, false, false⟩ ⟨2, 0⟩ 3 =
      ("error", ⟨some [⟨⟨1, 0⟩, 2⟩], []⟩) ∧
    delete_study_session ⟨some [⟨⟨1, 0⟩, 2⟩], []⟩ ⟨true, false, true⟩ 1 =
      (true, ⟨some [⟨⟨1, 0⟩, 2⟩], []⟩) ∧
    delete_study_session ⟨none, [⟨⟨1, 0⟩, 2⟩]⟩ ⟨true, true, false⟩ 1 =
      (false, ⟨none, [⟨⟨1, 0⟩, 2⟩]⟩) := by
  have h1 := (fallback_chain_amended ⟨some [⟨⟨1, 0⟩, 2⟩], []⟩ ⟨true, false, true⟩
    ⟨2, 0⟩ 3 1 [⟨⟨1, 0⟩, 2⟩]).1 rfl rfl rfl
  have h2 := (fallback_chain_amended ⟨some [⟨⟨1, 0⟩, 2⟩], []⟩ ⟨true, false, false⟩
    ⟨2, 0⟩ 3 1 [⟨⟨1, 0⟩, 2⟩]).2.1 rfl (Or.inr rfl)
  have h3 := (fallback_chain_amended ⟨some [⟨⟨1, 0⟩, 2⟩], []⟩ ⟨true, false, true⟩
    ⟨2, 0⟩ 3 1 [⟨⟨1, 0⟩, 2⟩]).2.2.1 rfl rfl
  have h4 := (fallback_chain_amended ⟨none, [⟨⟨1, 0⟩, 2⟩]⟩ ⟨true, true, false⟩
    ⟨2, 0⟩ 3 1 [⟨⟨1, 0⟩, 2⟩]).2.2.2 rfl rfl (by decide)
  exact ⟨h1, h2, h3, h4⟩

/-- C6: when the remote connection exists, the remote read succeeds, and
every remote worksheet write attempt raises, `delete_study_session` still
returns `True` while the deletion is applied to no backend at all: the write
loop swallows every exception, control never reaches the session-state
fallback, and the whole state is returned unchanged. -/
theorem delete_remote_write_swallowed (s : Sys) (f : Flags) (dd : Nat)
    (rdata : List StudyRecord) (h1 : s.remote = some rdata)
    (h2 : f.remoteReadOk = true) (h3 : f.remoteWriteOk = false) :
    (delete_study_session s f dd).1 = true ∧
    (delete_study_session s f dd).2 = s := by
  unfold delete_study_session
  rw [h1]
  simp only [get_study_data, h1, h2, if_true, h3]
  split <;> exact ⟨rfl, rfl⟩

/-- Witness for `delete_remote_write_swallowed`: remote store with day 1,
read working, every write failing — the delete of day 1 claims success and
changes nothing. -/
theorem delete_remote_write_swallowed_witness :
    (delete_study_session ⟨some [⟨⟨1, 0⟩, 6⟩], [⟨⟨3, 0⟩, 4⟩]⟩ ⟨true, false, true⟩ 1).1
      = true ∧
    (delete_study_session ⟨some [⟨⟨1, 0⟩, 6⟩], [⟨⟨3, 0⟩, 4⟩]⟩ ⟨true, false, true⟩ 1).2
      = ⟨some [⟨⟨1, 0⟩, 6⟩], [⟨⟨3, 0⟩, 4⟩]⟩ :=
  delete_remote_write_swallowed ⟨some [⟨⟨1, 0⟩, 6⟩], [⟨⟨3, 0⟩, 4⟩]⟩
    ⟨true, false, true⟩ 1 [⟨⟨1, 0⟩, 6⟩] rfl rfl rfl

/-- C7: the 7-day rolling average assigns to each record, in ascending date
order, the mean of the hours over the trailing window of up to 7 most recent
records by position; for ten consecutive days with hours 1..10 the value at
the 10th record is mean(4..10) = 7, and the weekly chart is displayed exactly
when the record count exceeds the window size 7. -/
theorem rolling_average_spec :
    sortByDate demoRecords = demoRecords ∧
    rollingAvg 7 (demoRecords.map (fun r => r.hours)) =
      [1, 3/2, 2, 5/2, 3, 7/2, 4, 5, 6, 7] ∧
    (rollingAvg 7 (demoRecords.map (fun r => r.hours))).getD 9 0 =
      (4 + 5 + 6 + 7 + 8 + 9 + 10) / 7 ∧
    showWeeklyChart demoRecords = true ∧
    showWeeklyChart (demoRecords.take 7) = false := by
  refine ⟨by decide, ?_, ?_, by decide, by decide⟩
  · norm_num [rollingAvg, windowMean, demoRecords, List.range_succ]
  · norm_num [rollingAvg, windowMean, demoRecords, List.range_succ]

theorem find?_first_success (p : SheetId → Bool) :
    ∀ (l : List SheetId) (x : SheetId), l.find? p = some x →
      p x = true ∧ ∃ l₁ l₂, l = l₁ ++ x :: l₂ ∧ ∀ y ∈ l₁, p y = false := by
  intro l
  induction l with
  | nil => intro x hx; simp at hx
  | cons a t ih =>
    intro x hx
    cases hpa : p a with
    | true =>
      rw [List.find?_cons_of_pos _ hpa] at hx
      cases hx
      exact ⟨hpa, [], t, rfl, by simp⟩
    | false =>
      rw [List.find?_cons_of_neg _ (by simp [hpa])] at hx
      obtain ⟨hpx, l₁, l₂, hsplit, hfail⟩ := ih x hx
      refine ⟨hpx, a :: l₁, l₂, by rw [hsplit]; rfl, ?_⟩
      intro y hy
      rcases List.mem_cons.mp hy with hy | hy
      · subst hy; exact hpa
      · exact hfail y hy

/-- Counterexample to C8: the probe order is NOT "numeric index 0 first".
When both the numeric index 0 and the name "Sheet 1" respond, the probe
settles on "Sheet 1" — because the fixed order tries the three case-variant
names before the numeric index, whose position is last, not first. -/
theorem probe_order_counterexample :
    probeSheets (fun s =>
        s == SheetId.idx 0 || s == SheetId.name "Sheet 1") =
      some (SheetId.name "Sheet 1") ∧
    sheet_names.head? ≠ some (SheetId.idx 0) ∧
    sheet_names.getLast? = some (SheetId.idx 0) := by
  refine ⟨by decide, by decide, by decide⟩

/-- C8 as amended: on every remote read and write the worksheet identifiers
are attempted in the fixed order — the case-variant names "sheet1", "Sheet1",
"Sheet 1", and then numeric index 0 last — stopping at the first identifier
that responds (every earlier one having failed); the probe list is a literal
rebuilt at each call and the successful identifier is never cached, so each
call re-runs the same probe sequence. -/
theorem probe_sheets_amended (ok : SheetId → Bool) (x : SheetId)
    (hx : probeSheets ok = some x) :
    ok x = true ∧
    (∃ l₁ l₂, sheet_names = l₁ ++ x :: l₂ ∧ ∀ y ∈ l₁, ok y = false) ∧
    sheet_names = [SheetId.name "sheet1", SheetId.name "Sheet1",
      SheetId.name "Sheet 1", SheetId.idx 0] := by
  obtain ⟨h1, h2⟩ := find?_first_success ok sheet_names x hx
  exact ⟨h1, h2, rfl⟩

/-- Witness for `probe_sheets_amended`: when only "Sheet1" responds, the
probe returns it after "sheet1" fails. -/
theorem probe_sheets_amended_witness :
    (fun s => s == SheetId.name "Sheet1") (SheetId.name "Sheet1") = true ∧
    (∃ l₁ l₂, sheet_names = l₁ ++ SheetId.name "Sheet1" :: l₂ ∧
      ∀ y ∈ l₁, (fun s => s == SheetId.name "Sheet1") y = false) ∧
    sheet_names = [SheetId.name "sheet1", SheetId.name "Sheet1",
      SheetId.name "Sheet 1", SheetId.idx 0] :=
  probe_sheets_amended (fun s => s == SheetId.name "Sheet1")
    (SheetId.name "Sheet1") (by decide)

theorem le_foldl_max (x : ℚ) (xs : List ℚ) : x ≤ xs.foldl max x := by
  induction xs generalizing x with
  | nil => exact le_refl x
  | cons y ys ih =>
    exact le_trans (le_max_left x y) (ih (max x y))

theorem mem_le_foldl_max {a : ℚ} :
    ∀ (xs : List ℚ) (x : ℚ), a ∈ xs → a ≤ xs.foldl max x := by
  intro xs
  induction xs with
  | nil => intro x ha; simp at ha
  | cons y ys ih =>
    intro x ha
    simp only [List.foldl_cons]
    rcases List.mem_cons.mp ha with ha | ha
    · subst ha
      exact le_trans (le_max_right x a) (le_foldl_max (max x a) ys)
    · exact ih (max x y) ha

theorem foldl_max_mem : ∀ (xs : List ℚ) (x : ℚ), xs.foldl max x ∈ x :: xs := by
  intro xs
  induction xs with
  | nil => intro x; simp
  | cons y ys ih =>
    intro x
    simp only [List.foldl_cons]
    have h := ih (max x y)
    rcases List.mem_cons.mp h with h | h
    · rw [h]
      rcases max_choice x y with hm | hm <;> rw [hm] <;> simp
    · exact List.mem_cons.mpr (Or.inr (List.mem_cons.mpr (Or.inr h)))

/-- Counterexample to C9: on the empty record list the statistics block is
never entered (`if not df.empty` fails), so no summary is computed at all —
in particular nothing reports `session_count == 0` or any total / average /
best value. -/
theorem summary_empty_counterexample :
    summaryStats [] = none ∧ (summaryStats []).isSome = false := by
  exact ⟨rfl, rfl⟩

/-- C9 as amended: on a non-empty record list the statistics block reports
total hours = sum, average = mean, session count = record count, and best day
= maximum of the hours (an attained upper bound); on the empty record list no
metrics are computed — the app shows an informational message instead of a
summary, and nothing crashes (the empty branch is total and returns
`none`). -/
theorem summary_stats_amended (hours : List ℚ) (hne : hours ≠ []) :
    summaryStats hours =
      some ⟨hours.sum, hours.sum / (hours.length : ℚ), hours.length, listMax hours⟩ ∧
    (∀ x ∈ hours, x ≤ listMax hours) ∧
    listMax hours ∈ hours ∧
    summaryStats [] = none := by
  have hemp : hours.isEmpty = false := by
    cases hs : hours with
    | nil => exact absurd hs hne
    | cons a t => rfl
  refine ⟨by unfold summaryStats; rw [hemp]; rfl, ?_, ?_, rfl⟩
  · intro x hx
    cases hs : hours with
    | nil => subst hs; simp at hx
    | cons a t =>
      subst hs
      unfold listMax
      rcases List.mem_cons.mp hx with hx | hx
      · subst hx; exact le_foldl_max x t
      · exact mem_le_foldl_max t a hx
  · cases hs : hours with
    | nil => exact absurd hs hne
    | cons a t =>
      subst hs
      exact foldl_max_mem t a

/-- Witness for `summary_stats_amended`: for hours [2, 5, 3] the summary is
total 10, average 10/3, count 3, best 5. -/
theorem summary_stats_amended_witness :
    summaryStats [(2 : ℚ), 5, 3] =
      some ⟨[(2 : ℚ), 5, 3].sum, [(2 : ℚ), 5, 3].sum / (([(2 : ℚ), 5, 3].length : Nat) : ℚ),
        [(2 : ℚ), 5, 3].length, listMax [(2 : ℚ), 5, 3]⟩ ∧
    (∀ x ∈ [(2 : ℚ), 5, 3], x ≤ listMax [(2 : ℚ), 5, 3]) ∧
    listMax [(2 : ℚ), 5, 3] ∈ [(2 : ℚ), 5, 3] ∧
    summaryStats [] = none :=
  summary_stats_amended [(2 : ℚ), 5, 3] (by decide)

/-- C10: the read path never fails — with no connection, or when the remote
read raises, it returns the session fallback contents (the session set starts
empty, so an unreachable backend yields the empty sequence); a successful
remote read returns the cleaned sheet, which is ordered ascending by date,
empty when the sheet is empty, and in which every record stems from a raw row
whose date cell is not a case-variant of the "date" header (such header rows
are stripped before parsing). -/
theorem read_path_spec (remote : Option (List RawRow)) (session : List StudyRecord)
    (readOk : Bool) (rows : List RawRow) :
    (remote = none → get_study_data_raw remote session readOk = session) ∧
    (readOk = false → get_study_data_raw remote session readOk = session) ∧
    (remote = some rows → readOk = true →
      get_study_data_raw remote session readOk = cleanSheet rows ∧
      cleanSheet [] = [] ∧
      List.Pairwise (fun a b => a.date.day ≤ b.date.day) (cleanSheet rows) ∧
      ∀ q ∈ cleanSheet rows, ∃ raw ∈ rows,
        lowerStr raw.dateCell ≠ "date" ∧ raw.dateVal = q.date ∧
        raw.hoursNum = some q.hours) := by
  refine ⟨?_, ?_, ?_⟩
  · intro h1
    rw [h1]
    rfl
  · intro h2
    cases remote with
    | none => rfl
    | some rws => unfold get_study_data_raw; rw [h2]; rfl
  · intro h1 h2
    subst h1
    refine ⟨by unfold get_study_data_raw; rw [h2]; rfl, rfl, ?_, ?_⟩
    · unfold cleanSheet
      refine (sortByDate_sorted _).imp ?_
      intro a b hab
      unfold dtLE at hab
      omega
    · intro q hq
      unfold cleanSheet at hq
      rw [mem_sortByDate, List.mem_map] at hq
      obtain ⟨raw, hraw, hmap⟩ := hq
      rw [List.mem_filter] at hraw
      obtain ⟨hraw1, hsome⟩ := hraw
      rw [List.mem_filter] at hraw1
      obtain ⟨hmem, hhdr⟩ := hraw1
      refine ⟨raw, hmem, ?_, ?_, ?_⟩
      · intro hcontra
        simp [hcontra] at hhdr
      · rw [← hmap]
      · cases hval : raw.hoursNum with
        | none => rw [hval] at hsome; simp at hsome
        | some v =>
          rw [← hmap]
          simp [hval]

/-- Witness for `read_path_spec`: a sheet with a lower-case header row
"date", an unparseable hours cell, and two data rows out of order reads back
as the two parsed records sorted ascending; a failed read falls back to the
session contents. -/
theorem read_path_spec_witness :
    get_study_data_raw
        (some [⟨"date", none, ⟨0, 0⟩⟩, ⟨"2024-01-02", some 2, ⟨2, 0⟩⟩,
          ⟨"2024-01-01", some 1, ⟨1, 0⟩⟩]) [] true =
      cleanSheet [⟨"date", none, ⟨0, 0⟩⟩, ⟨"2024-01-02", some 2, ⟨2, 0⟩⟩,
        ⟨"2024-01-01", some 1, ⟨1, 0⟩⟩] ∧
    cleanSheet [⟨"date", none, ⟨0, 0⟩⟩, ⟨"2024-01-02", some 2, ⟨2, 0⟩⟩,
        ⟨"2024-01-01", some 1, ⟨1, 0⟩⟩] =
      [⟨⟨1, 0⟩, 1⟩, ⟨⟨2, 0⟩, 2⟩] ∧
    get_study_data_raw
        (some [⟨"date", none, ⟨0, 0⟩⟩]) [⟨⟨3, 0⟩, 4⟩] false = [⟨⟨3, 0⟩, 4⟩] :=
  ⟨((read_path_spec
      (some [⟨"date", none, ⟨0, 0⟩⟩, ⟨"2024-01-02", some 2, ⟨2, 0⟩⟩,
        ⟨"2024-01-01", some 1, ⟨1, 0⟩⟩]) [] true
      [⟨"date", none, ⟨0, 0⟩⟩, ⟨"2024-01-02", some 2, ⟨2, 0⟩⟩,
        ⟨"2024-01-01", some 1, ⟨1, 0⟩⟩]).2.2 rfl rfl).1,
   by decide,
   (read_path_spec (some [⟨"date", none, ⟨0, 0⟩⟩]) [⟨⟨3, 0⟩, 4⟩] false
      [⟨"date", none, ⟨0, 0⟩⟩]).2.1 rfl⟩
